import Mathlib

/-!
Verification of the demand-driven backpressure adapter in `src/lib.rs`
(`WriteAdapterConsumer`).  The Rust state (`demand: usize`,
`event_queue: VecDeque<ConsumerEvent>`, `buffered: Option<Vec<u8>>`) is
embedded as a Lean structure; the owned `writer` is abstract, so each call
to `write` takes the sink outcome (`Ok(n)` or `Err(_)`) for that call as an
explicit argument.  `demand` is modelled as `Int` so that the absence of
underflow in `self.demand -= 1` is a provable property rather than a
consequence of the ambient type.  The slice expression `&data[n..]`, which
panics in Rust when `n > data.len()`, is modelled by an `Option` result of
`write`, with `none` standing for the panic.
-/

/-- `enum ConsumerEvent { Request(usize), Termination, Finish }`. -/
inductive ConsumerEvent where
  | Request (count : Nat)
  | Termination
  | Finish
deriving DecidableEq

/-- `enum ConsumerError { WriteWithoutRequest }`. -/
inductive ConsumerError where
  | WriteWithoutRequest
deriving DecidableEq

/-- Outcome of one call to the owned writer: `Ok(n)` with the accepted
byte count, or an I/O error (whose payload the adapter ignores). -/
inductive SinkResult where
  | ok (n : Nat)
  | err
deriving DecidableEq

/-- The observable state of `WriteAdapterConsumer` (the owned `writer` is
abstracted away; sink outcomes are supplied per call). -/
structure WriteAdapterConsumer where
  demand : Int
  event_queue : List ConsumerEvent
  buffered : Option (List Nat)
deriving DecidableEq

/-- `fn emit(&mut self, event)`: `self.event_queue.push_back(event)`. -/
def WriteAdapterConsumer.emit (c : WriteAdapterConsumer)
    (event : ConsumerEvent) : WriteAdapterConsumer :=
  { c with event_queue := c.event_queue ++ [event] }

/-- `WriteAdapterConsumer::new`: `demand = initial_demand = 1`, empty queue,
no buffer, then `consumer.emit(ConsumerEvent::Request(initial_demand))`. -/
def WriteAdapterConsumer.new : WriteAdapterConsumer :=
  let initial_demand : Nat := 1
  let consumer : WriteAdapterConsumer :=
    { demand := (initial_demand : Int)
      event_queue := []
      buffered := none }
  consumer.emit (ConsumerEvent.Request initial_demand)

/-- The Rust slice `&data[n..]`: defined when `n ≤ data.len()`, a panic
(modelled as `none`) otherwise. -/
def sliceFrom (data : List Nat) (n : Nat) : Option (List Nat) :=
  if n ≤ data.length then some (data.drop n) else none

/-- `fn write(&mut self, data) -> Result<(), ConsumerError>`.  The result
pairs the returned `Result` with the post state; `none` models the panic of
`data[n..]` when the sink reports more bytes than were offered. -/
def WriteAdapterConsumer.write (c : WriteAdapterConsumer)
    (res : SinkResult) (data : List Nat) :
    Option (Except ConsumerError Unit × WriteAdapterConsumer) :=
  if c.demand > 0 then
    match res with
    | SinkResult.ok n =>
      if n ≠ data.length then
        match sliceFrom data n with
        | some rest =>
          some (Except.ok (),
            { c with buffered := some rest, demand := c.demand - 1 })
        | none => none
      else
        some (Except.ok (), c.emit (ConsumerEvent.Request 1))
    | SinkResult.err =>
      some (Except.ok (),
        { c with buffered := some data, demand := c.demand - 1 })
  else
    some (Except.error ConsumerError.WriteWithoutRequest, c)

/-- `fn next_event(&mut self) -> Option<ConsumerEvent>`:
`self.event_queue.pop_front()`, returned with the post state. -/
def WriteAdapterConsumer.next_event (c : WriteAdapterConsumer) :
    Option ConsumerEvent × WriteAdapterConsumer :=
  match c.event_queue with
  | [] => (none, c)
  | e :: rest => (some e, { c with event_queue := rest })

/-- `fn update(&mut self) {}`: empty body. -/
def WriteAdapterConsumer.update (c : WriteAdapterConsumer) :
    WriteAdapterConsumer :=
  c

/-- One invocation of a trait method of `Consumer`, with the sink outcome
for a `write` supplied alongside it. -/
inductive Op where
  | write (res : SinkResult) (data : List Nat)
  | emit (event : ConsumerEvent)
  | next_event
  | update
deriving DecidableEq

/-- The state transition of one operation.  A panicking `write` aborts the
program before mutating the state, so its state effect is the identity. -/
def WriteAdapterConsumer.step (c : WriteAdapterConsumer) : Op → WriteAdapterConsumer
  | Op.write res data =>
    match c.write res data with
    | some (_, c2) => c2
    | none => c
  | Op.emit e => c.emit e
  | Op.next_event => (c.next_event).2
  | Op.update => c.update

/-- Run a sequence of operations from a state. -/
def WriteAdapterConsumer.run (c : WriteAdapterConsumer) : List Op → WriteAdapterConsumer
  | [] => c
  | op :: ops => (c.step op).run ops

/-- Repeatedly write `data` to a sink that fully accepts it every time. -/
def WriteAdapterConsumer.fullWrites (c : WriteAdapterConsumer)
    (data : List Nat) : Nat → WriteAdapterConsumer
  | 0 => c
  | k + 1 =>
    (c.step (Op.write (SinkResult.ok data.length) data)).fullWrites data k

/-- Emit a list of events in order. -/
def WriteAdapterConsumer.emitAll (c : WriteAdapterConsumer) :
    List ConsumerEvent → WriteAdapterConsumer
  | [] => c
  | e :: es => (c.emit e).emitAll es

/-- The list of events returned by `k` successive `next_event` calls,
stopping early at an empty queue. -/
def WriteAdapterConsumer.drain (c : WriteAdapterConsumer) :
    Nat → List ConsumerEvent
  | 0 => []
  | k + 1 =>
    match c.next_event with
    | (some e, c2) => e :: c2.drain k
    | (none, _) => []

/-- Claim C1: a freshly constructed consumer has `demand = 1`, its event
queue holds exactly the one event `Request(1)`, and the first `next_event`
returns `Request(1)` while `demand` is still `1`. -/
theorem spec_C1 :
    WriteAdapterConsumer.new.demand = 1 ∧
    WriteAdapterConsumer.new.event_queue = [ConsumerEvent.Request 1] ∧
    (WriteAdapterConsumer.new.next_event).1 = some (ConsumerEvent.Request 1) ∧
    (WriteAdapterConsumer.new.next_event).2.demand = 1 := by
  refine ⟨rfl, rfl, rfl, rfl⟩

/-- Claim C2: with `demand = 0`, `write` returns `WriteWithoutRequest` for
any sink outcome and any data, and the state is returned unchanged (same
`demand`, `buffered` and event queue; no event appended). -/
theorem spec_C2 (c : WriteAdapterConsumer) (res : SinkResult)
    (data : List Nat) (h : c.demand = 0) :
    c.write res data =
      some (Except.error ConsumerError.WriteWithoutRequest, c) := by
  simp [WriteAdapterConsumer.write, h]

/-- Witness for C2 at a concrete exhausted state. -/
theorem spec_C2_witness :
    ({ demand := 0, event_queue := [], buffered := none } :
        WriteAdapterConsumer).write SinkResult.err [65] =
      some (Except.error ConsumerError.WriteWithoutRequest,
        { demand := 0, event_queue := [], buffered := none }) :=
  spec_C2 _ SinkResult.err [65] rfl

/-- Claim C9: `update` is a no-op: it leaves `demand`, `buffered` and the
event queue (the whole state) unchanged. -/
theorem spec_C9 (c : WriteAdapterConsumer) : c.update = c := rfl

theorem write_full_acceptance (c : WriteAdapterConsumer) (data : List Nat)
    (h : 0 < c.demand) :
    c.write (SinkResult.ok data.length) data =
      some (Except.ok (),
        { c with event_queue := c.event_queue ++ [ConsumerEvent.Request 1] }) := by
  simp [WriteAdapterConsumer.write, h, WriteAdapterConsumer.emit]

theorem fullWrites_spec (data : List Nat) (k : Nat) :
    ∀ c : WriteAdapterConsumer, 0 < c.demand →
      (c.fullWrites data k).demand = c.demand ∧
      (c.fullWrites data k).event_queue =
        c.event_queue ++ List.replicate k (ConsumerEvent.Request 1) ∧
      (c.fullWrites data k).buffered = c.buffered := by
  induction k with
  | zero =>
    intro c h
    simp [WriteAdapterConsumer.fullWrites]
  | succ k ih =>
    intro c h
    have hstep : c.step (Op.write (SinkResult.ok data.length) data) =
        c.emit (ConsumerEvent.Request 1) := by
      simp [WriteAdapterConsumer.step, write_full_acceptance c data h,
        WriteAdapterConsumer.emit]
    rw [WriteAdapterConsumer.fullWrites, hstep]
    obtain ⟨h1, h2, h3⟩ :=
      ih (c.emit (ConsumerEvent.Request 1)) (by simpa [WriteAdapterConsumer.emit] using h)
    refine ⟨by simpa [WriteAdapterConsumer.emit] using h1, ?_,
      by simpa [WriteAdapterConsumer.emit] using h3⟩
    rw [h2]
    simp [WriteAdapterConsumer.emit, List.replicate_succ]

/-- Claim C3: with `demand > 0` and a sink accepting exactly `data.len()`
bytes, `write` succeeds, appends exactly one `Request(1)` at the tail of
the queue, and leaves `demand` and `buffered` unchanged; hence `k` repeated
fully-accepted writes keep `demand` and `buffered` fixed and append exactly
`k` copies of `Request(1)`. -/
theorem spec_C3 :
    (∀ (c : WriteAdapterConsumer) (data : List Nat), 0 < c.demand →
      c.write (SinkResult.ok data.length) data =
        some (Except.ok (),
          { c with event_queue := c.event_queue ++ [ConsumerEvent.Request 1] })) ∧
    (∀ (c : WriteAdapterConsumer) (data : List Nat) (k : Nat), 0 < c.demand →
      (c.fullWrites data k).demand = c.demand ∧
      (c.fullWrites data k).event_queue =
        c.event_queue ++ List.replicate k (ConsumerEvent.Request 1) ∧
      (c.fullWrites data k).buffered = c.buffered) :=
  ⟨write_full_acceptance, fun c data k h => fullWrites_spec data k c h⟩

/-- Witness for C3: a fresh consumer, data `[65]`, three repeated writes. -/
theorem spec_C3_witness :
    (WriteAdapterConsumer.new.write (SinkResult.ok 1) [65] =
      some (Except.ok (),
        { WriteAdapterConsumer.new with
            event_queue :=
              WriteAdapterConsumer.new.event_queue ++ [ConsumerEvent.Request 1] })) ∧
    (WriteAdapterConsumer.new.fullWrites [65] 3).demand = 1 ∧
    (WriteAdapterConsumer.new.fullWrites [65] 3).event_queue =
      ConsumerEvent.Request 1 :: List.replicate 3 (ConsumerEvent.Request 1) :=
  ⟨spec_C3.1 WriteAdapterConsumer.new [65] (by decide),
    (spec_C3.2 WriteAdapterConsumer.new [65] 3 (by decide)).1,
    (spec_C3.2 WriteAdapterConsumer.new [65] 3 (by decide)).2.1⟩

/-- Claim C4: with `demand > 0` and a sink accepting `n < data.len()`
bytes, `write` succeeds, overwrites `buffered` with the suffix `data[n..]`,
decrements `demand` by exactly one, and appends no event. -/
theorem spec_C4 (c : WriteAdapterConsumer) (n : Nat) (data : List Nat)
    (hd : 0 < c.demand) (hn : n < data.length) :
    c.write (SinkResult.ok n) data =
      some (Except.ok (),
        { c with buffered := some (data.drop n), demand := c.demand - 1 }) := by
  have hne : n ≠ data.length := Nat.ne_of_lt hn
  simp [WriteAdapterConsumer.write, hd, hne, sliceFrom, Nat.le_of_lt hn]

/-- Witness for C4: a fresh consumer with a prior buffer, sink accepts 1 of
2 bytes. -/
theorem spec_C4_witness :
    ({ demand := 1, event_queue := [], buffered := some [9] } :
        WriteAdapterConsumer).write (SinkResult.ok 1) [65, 66] =
      some (Except.ok (),
        { demand := 0, event_queue := [], buffered := some [66] }) :=
  spec_C4 _ 1 [65, 66] (by decide) (by decide)

/-- Claim C5: with `demand > 0` and a failing sink, `write` still returns
success, overwrites `buffered` with all of `data`, decrements `demand` by
exactly one, and appends no event. -/
theorem spec_C5 (c : WriteAdapterConsumer) (data : List Nat)
    (hd : 0 < c.demand) :
    c.write SinkResult.err data =
      some (Except.ok (),
        { c with buffered := some data, demand := c.demand - 1 }) := by
  simp [WriteAdapterConsumer.write, hd]

/-- Witness for C5: a fresh consumer with a prior buffer and a failing
sink. -/
theorem spec_C5_witness :
    ({ demand := 1, event_queue := [], buffered := some [9] } :
        WriteAdapterConsumer).write SinkResult.err [65] =
      some (Except.ok (),
        { demand := 0, event_queue := [], buffered := some [65] }) :=
  spec_C5 _ [65] (by decide)

theorem step_demand_cases (c : WriteAdapterConsumer) (op : Op) :
    (c.step op).demand = c.demand ∨
      ((c.step op).demand = c.demand - 1 ∧ 0 < c.demand) := by
  cases op with
  | write res data =>
    by_cases hd : 0 < c.demand
    · cases res with
      | ok n =>
        by_cases hn : n = data.length
        · left
          simp [WriteAdapterConsumer.step, WriteAdapterConsumer.write, hd, hn,
            WriteAdapterConsumer.emit]
        · by_cases hs : n ≤ data.length
          · right
            refine ⟨?_, hd⟩
            simp [WriteAdapterConsumer.step, WriteAdapterConsumer.write, hd, hn,
              sliceFrom, hs]
          · left
            simp [WriteAdapterConsumer.step, WriteAdapterConsumer.write, hd, hn,
              sliceFrom, hs]
      | err =>
        right
        refine ⟨?_, hd⟩
        simp [WriteAdapterConsumer.step, WriteAdapterConsumer.write, hd]
    · left
      simp [WriteAdapterConsumer.step, WriteAdapterConsumer.write, hd]
  | emit e => left; rfl
  | next_event =>
    left
    cases hq : c.event_queue <;>
      simp [WriteAdapterConsumer.step, WriteAdapterConsumer.next_event, hq]
  | update => left; rfl

theorem run_demand_nonneg (ops : List Op) :
    ∀ c : WriteAdapterConsumer, 0 ≤ c.demand → 0 ≤ (c.run ops).demand := by
  induction ops with
  | nil => intro c h; exact h
  | cons op ops ih =>
    intro c h
    rw [WriteAdapterConsumer.run]
    refine ih _ ?_
    rcases step_demand_cases c op with h1 | ⟨h1, h2⟩ <;> omega

theorem run_demand_le (ops : List Op) :
    ∀ c : WriteAdapterConsumer, (c.run ops).demand ≤ c.demand := by
  induction ops with
  | nil => intro c; exact le_refl _
  | cons op ops ih =>
    intro c
    rw [WriteAdapterConsumer.run]
    refine le_trans (ih _) ?_
    rcases step_demand_cases c op with h1 | ⟨h1, h2⟩ <;> omega

/-- Claim C6: `demand ≥ 0` is preserved by every operation (`demand` is
decremented only under the `demand > 0` guard, so it never goes below
zero), and it holds in every state reachable from a fresh consumer. -/
theorem spec_C6 :
    (∀ (c : WriteAdapterConsumer) (op : Op),
      0 ≤ c.demand → 0 ≤ (c.step op).demand) ∧
    (∀ ops : List Op, 0 ≤ (WriteAdapterConsumer.new.run ops).demand) := by
  constructor
  · intro c op h
    rcases step_demand_cases c op with h1 | ⟨h1, h2⟩ <;> omega
  · intro ops
    exact run_demand_nonneg ops WriteAdapterConsumer.new (by decide)

/-- Witness for C6 at a concrete state and operation. -/
theorem spec_C6_witness :
    0 ≤ (WriteAdapterConsumer.new.step (Op.write SinkResult.err [65])).demand :=
  spec_C6.1 WriteAdapterConsumer.new (Op.write SinkResult.err [65]) (by decide)

theorem emitAll_queue (es : List ConsumerEvent) :
    ∀ c : WriteAdapterConsumer,
      (c.emitAll es).event_queue = c.event_queue ++ es ∧
      (c.emitAll es).demand = c.demand ∧
      (c.emitAll es).buffered = c.buffered := by
  induction es with
  | nil =>
    intro c
    simp [WriteAdapterConsumer.emitAll]
  | cons e es ih =>
    intro c
    rw [WriteAdapterConsumer.emitAll]
    obtain ⟨h1, h2, h3⟩ := ih (c.emit e)
    refine ⟨?_, by simpa [WriteAdapterConsumer.emit] using h2,
      by simpa [WriteAdapterConsumer.emit] using h3⟩
    rw [h1]
    simp [WriteAdapterConsumer.emit]

theorem drain_queue (q : List ConsumerEvent) :
    ∀ c : WriteAdapterConsumer, c.event_queue = q → c.drain q.length = q := by
  induction q with
  | nil =>
    intro c h
    simp [WriteAdapterConsumer.drain]
  | cons e rest ih =>
    intro c h
    have hnext : c.next_event = (some e, { c with event_queue := rest }) := by
      simp [WriteAdapterConsumer.next_event, h]
    simp only [List.length_cons, WriteAdapterConsumer.drain, hnext]
    rw [ih { c with event_queue := rest } rfl]

/-- Claim C7: the queue is strictly FIFO: `emit` appends at the tail with
no validation and touches nothing else, `next_event` removes and returns
the head (or `none` on an empty queue) and touches nothing else, and after
emitting any sequence of events, successive `next_event` calls return the
whole queue content in insertion order, with nothing reordered, dropped or
coalesced. -/
theorem spec_C7 :
    (∀ (c : WriteAdapterConsumer) (e : ConsumerEvent),
      (c.emit e).event_queue = c.event_queue ++ [e] ∧
      (c.emit e).demand = c.demand ∧ (c.emit e).buffered = c.buffered) ∧
    (∀ c : WriteAdapterConsumer,
      (c.next_event).1 = c.event_queue.head? ∧
      (c.next_event).2.event_queue = c.event_queue.tail ∧
      (c.next_event).2.demand = c.demand ∧
      (c.next_event).2.buffered = c.buffered) ∧
    (∀ (c : WriteAdapterConsumer) (es : List ConsumerEvent),
      (c.emitAll es).drain (c.event_queue ++ es).length = c.event_queue ++ es) := by
  refine ⟨fun c e => ⟨rfl, rfl, rfl⟩, fun c => ?_, fun c es => ?_⟩
  · cases hq : c.event_queue <;>
      simp [WriteAdapterConsumer.next_event, hq]
  · exact drain_queue (c.event_queue ++ es) (c.emitAll es) (emitAll_queue es c).1

/-- Claim C8: no operation ever increases `demand`; consequently, along
every operation sequence from a fresh consumer, `demand` never exceeds its
construction value `1`, and spent demand is never restored. -/
theorem spec_C8 :
    (∀ (c : WriteAdapterConsumer) (op : Op), (c.step op).demand ≤ c.demand) ∧
    (∀ ops : List Op, (WriteAdapterConsumer.new.run ops).demand ≤ 1) := by
  constructor
  · intro c op
    rcases step_demand_cases c op with h1 | ⟨h1, h2⟩ <;> omega
  · intro ops
    exact run_demand_le ops WriteAdapterConsumer.new

/-- Claim C10: `write` tests the reported count `n` for inequality with
`data.len()` and then slices `data[n..]`; whenever `n ≤ data.len()` (and
for every failing sink) no panic occurs, while a sink reporting
`n > data.len()` makes the slice index out of bounds: a fresh consumer with
a sink reporting `1` accepted byte on empty data panics. -/
theorem spec_C10 :
    (∀ (c : WriteAdapterConsumer) (n : Nat) (data : List Nat),
      n ≤ data.length → c.write (SinkResult.ok n) data ≠ none) ∧
    (∀ (c : WriteAdapterConsumer) (data : List Nat),
      c.write SinkResult.err data ≠ none) ∧
    WriteAdapterConsumer.new.write (SinkResult.ok 1) [] = none := by
  refine ⟨fun c n data hs => ?_, fun c data => ?_, rfl⟩
  · by_cases hd : 0 < c.demand
    · by_cases hn : n = data.length <;>
        simp [WriteAdapterConsumer.write, hd, hn, sliceFrom, hs]
    · simp [WriteAdapterConsumer.write, hd]
  · by_cases hd : 0 < c.demand <;>
      simp [WriteAdapterConsumer.write, hd]

/-- Witness for C10: an in-bounds count on a fresh consumer. -/
theorem spec_C10_witness :
    WriteAdapterConsumer.new.write (SinkResult.ok 0) [65] ≠ none :=
  spec_C10.1 WriteAdapterConsumer.new 0 [65] (by decide)
